import Mathlib

/-!
Verification of the real-time prediction synchronization engine of the
AI-BasedTradingSystem repository.  The JavaScript sources are shallowly
embedded: JS numbers that carry scores/sentiments become `ℚ`, article
counts become `ℤ`, JS strings become `String`, possibly-missing object
fields become `Option`, and every call to `Math.random()` becomes an
explicit parameter (the random draw).  `new Date().toISOString()` becomes
an explicit `now : String` parameter.
-/

/-- Models JavaScript `a || b` on strings: the empty string is falsy. -/
def jsOr (a b : String) : String := if a = "" then b else a

/-- Truthiness filter for a possibly-missing string field: `none` and `""` are falsy. -/
def truthy (o : Option String) : Option String :=
  match o with
  | some s => if s = "" then none else some s
  | none => none

/-- Models `a || d` where `a` is a possibly-missing string field. -/
def orD (a : Option String) (d : String) : String := (truthy a).getD d

/-- Models `a || b || d` on possibly-missing string fields. -/
def orD2 (a b : Option String) (d : String) : String := (truthy a).getD (orD b d)

/-- Models nullish coalescing `a ?? b ?? d` (unlike `||` it does not treat falsy values specially,
only missing ones). -/
def nn2 {α : Type} (a b : Option α) (d : α) : α := (a.orElse fun _ => b).getD d

/-- Models JavaScript `hay.includes(needle)` (substring test). -/
def strIncludes (hay needle : String) : Bool :=
  (List.range (hay.length + 1)).any (fun i => needle.data.isPrefixOf (hay.data.drop i))

/-- Models JavaScript `s.endsWith(suffix)`. -/
def strEndsWith (s suffix : String) : Bool := suffix.data.isSuffixOf s.data

/-- Replace the first occurrence of `pat` in a character list (JavaScript
`String.prototype.replace` with a string pattern replaces only the first occurrence). -/
def replaceFirst (pat rep : List Char) : List Char → List Char
  | [] => if pat.isPrefixOf ([] : List Char) then rep else []
  | c :: rest =>
    if pat.isPrefixOf (c :: rest) then rep ++ (c :: rest).drop pat.length
    else c :: replaceFirst pat rep rest

/-- Models JavaScript `s.replace(pat, rep)` with a string pattern. -/
def strReplaceFirst (s pat rep : String) : String := ⟨replaceFirst pat.data rep.data s.data⟩

/-- Models JavaScript `Math.round` on a rational: round half toward positive infinity. -/
def jsRound (x : ℚ) : ℤ := ⌊x + 1/2⌋

/-- Models `Number(x.toFixed(3))`: round to three decimals, half away from zero resolved
upward as in the ECMAScript `toFixed` specification ("pick the larger n"). -/
def toFixed3 (x : ℚ) : ℚ := (⌊x * 1000 + 1/2⌋ : ℚ) / 1000

namespace Part000
/-!
Embedding of the predictions context provider (source file `src/unnamed/part_000`):
`normalizeScore01`, `normalizeOne`, `signalFromScore`, `directionFromSignal`,
`confidenceFromAbs`, `applyTick` and `stableMerge`.
-/

/-- `clamp(v, min, max) = Math.max(min, Math.min(max, v))`. -/
def clamp (v mn mx : ℚ) : ℚ := max mn (min mx v)

/-- Same clamp applied to integer-valued article counts. -/
def clampZ (v mn mx : ℤ) : ℤ := max mn (min mx v)

/-- `toNum`: a missing (or non-finite) value coerces to 0. -/
def toNum (v : Option ℚ) : ℚ := v.getD 0

/-- `normalizeScore01`: percentage-looking magnitudes (|n| > 1.5) are divided by 100,
anything else is passed through. -/
def normalizeScore01 (v : Option ℚ) : ℚ :=
  let n := toNum v
  if 3/2 < |n| then n / 100 else n

/-- The nested `item.prediction` object as received from the API (all fields optional). -/
structure PredIn where
  combined_score : Option ℚ := none
  final_signal : Option String := none
  direction : Option String := none
  confidence_level : Option String := none
  reasoning : Option String := none
deriving DecidableEq

/-- A raw API item, as consumed by `normalizeOne`. -/
structure Item where
  ticker : Option String := none
  company_name : Option String := none
  timestamp : Option String := none
  total_articles : Option ℤ := none
  article_count : Option ℤ := none
  average_sentiment : Option ℚ := none
  prediction : Option PredIn := none
deriving DecidableEq

/-- The nested `prediction` object of a canonical record produced by this file. -/
structure PredOut where
  final_signal : String
  direction : String
  combined_score : ℚ
  confidence_level : String
  reasoning : String
deriving DecidableEq

/-- The canonical record shape produced by `normalizeOne` / `applyTick`;
`simulated` models the `_simulated` flag. -/
structure Rec where
  ticker : String
  company_name : String
  timestamp : String
  total_articles : ℤ
  average_sentiment : ℚ
  pred : PredOut
  simulated : Bool
deriving DecidableEq

/-- `normalizeOne(item)`; `now` stands for `new Date().toISOString()`. -/
def normalizeOne (item : Item) (now : String) : Rec :=
  let predObj := item.prediction
  let combined := normalizeScore01 (predObj.bind (·.combined_score))
  let avgSent := normalizeScore01 item.average_sentiment
  { ticker := orD item.ticker "N/A"
    company_name := orD2 item.company_name item.ticker "N/A"
    timestamp := orD item.timestamp now
    total_articles := nn2 item.total_articles item.article_count 0
    average_sentiment := avgSent
    pred :=
      { final_signal := orD (predObj.bind (·.final_signal)) "HOLD"
        direction := orD (predObj.bind (·.direction)) "NEUTRAL"
        combined_score := combined
        confidence_level := orD (predObj.bind (·.confidence_level)) "LOW"
        reasoning := orD (predObj.bind (·.reasoning)) "Insufficient data" }
    simulated := true }

/-- This file's copy of the signal table (BUY threshold 0.12). -/
def signalFromScore (score : ℚ) : String :=
  if score ≥ 55/100 then "STRONG_BUY"
  else if score ≥ 12/100 then "BUY"
  else if score ≤ -(55/100) then "STRONG_SELL"
  else if score ≤ -(12/100) then "SELL"
  else "HOLD"

/-- `directionFromSignal`. -/
def directionFromSignal (sig : String) : String :=
  if sig = "BUY" ∨ sig = "STRONG_BUY" then "BULLISH"
  else if sig = "SELL" ∨ sig = "STRONG_SELL" then "BEARISH"
  else "NEUTRAL"

/-- `confidenceFromAbs`: confidence level derived from |score|, not from articles. -/
def confidenceFromAbs (absScore : ℚ) : String :=
  if absScore ≥ 65/100 then "HIGH"
  else if absScore ≥ 25/100 then "MEDIUM"
  else "LOW"

/-- `applyTick(p)`: one simulator tick.  The three `rand(..)` draws are the explicit
parameters `dScore ∈ [-0.12,0.12]`, `dSent ∈ [-0.08,0.08]`, `dArt ∈ [-3,6]`; the theorems
quantify over all rational draws, a superset of the actual ranges. -/
def applyTick (p : Rec) (now : String) (dScore dSent dArt : ℚ) : Rec :=
  let newScore := clamp (p.pred.combined_score + dScore) (-(99/100)) (99/100)
  let newSent := clamp (p.average_sentiment + dSent) (-(99/100)) (99/100)
  let sig := signalFromScore newScore
  let dir := directionFromSignal sig
  let conf := confidenceFromAbs |newScore|
  let newArticles := clampZ (jsRound ((p.total_articles : ℚ) + dArt)) 0 200
  let reasoning :=
    if sig = "HOLD" then "Neutral bias | Monitoring"
    else if strIncludes sig "BUY" then
      "Positive sentiment | Based on " ++ toString newArticles ++ " articles"
    else "Negative sentiment | Based on " ++ toString newArticles ++ " articles"
  { p with
    timestamp := now
    total_articles := newArticles
    average_sentiment := newSent
    pred := { p.pred with
      combined_score := newScore
      final_signal := sig
      direction := dir
      confidence_level := conf
      reasoning := reasoning }
    simulated := true }

/-- Iterated simulator ticks (timestamps and random draws supplied per tick). -/
def ticks (p : Rec) (now : ℕ → String) (d : ℕ → ℚ × ℚ × ℚ) : ℕ → Rec
  | 0 => p
  | n + 1 => applyTick (ticks p now d n) (now n) (d n).1 (d n).2.1 (d n).2.2

/-- The ticker a raw item normalizes to (`item?.ticker || "N/A"`). -/
def itemTicker (item : Item) : String := orD item.ticker "N/A"

/-- Lookup in `new Map(prevList.map(x => [x.ticker, x]))`: on duplicate tickers the
later entry wins (later `Map.set` overwrites). -/
def mapLookup : List Rec → String → Option Rec
  | [], _ => none
  | r :: rest, t =>
    match mapLookup rest t with
    | some x => some x
    | none => if r.ticker == t then some r else none

/-- The body of the `apiList.map` inside `stableMerge` (the source binds
`normalizedApi = normalizeOne(apiItem)` once; the pure call is inlined here): a
previously-seen ticker keeps all of `prev` except the identity fields. -/
def mergeEntry (prevList : List Rec) (now : String) (apiItem : Item) : Rec :=
  match mapLookup prevList (normalizeOne apiItem now).ticker with
  | none => normalizeOne apiItem now
  | some prev =>
    { prev with
      ticker := (normalizeOne apiItem now).ticker
      company_name := jsOr (normalizeOne apiItem now).company_name prev.company_name }

/-- `stableMerge(prevList, apiList)`: API order first, then prev-only tickers appended. -/
def stableMerge (prevList : List Rec) (apiList : List Item) (now : String) : List Rec :=
  apiList.map (mergeEntry prevList now) ++
    prevList.filter (fun p =>
      ! ((apiList.map (mergeEntry prevList now)).map (·.ticker)).contains p.ticker)

end Part000

namespace Part002
/-!
Embedding of `src/utils/predictionUtils.js` (source file `src/unnamed/part_002`):
`clamp`, `signalFromScore`, `directionFromScore`, `confidenceLevelFromArticles`,
`normalizePrediction` and the per-record body of `tickPredictions`.
-/

/-- `clamp(v, min, max) = Math.max(min, Math.min(max, v))`. -/
def clamp (v mn mx : ℚ) : ℚ := max mn (min mx v)

/-- Integer clamp used for article counts. -/
def clampZ (v mn mx : ℤ) : ℤ := max mn (min mx v)

/-- This file's copy of the signal table (BUY threshold 0.15). -/
def signalFromScore (score : ℚ) : String :=
  if score ≥ 55/100 then "STRONG_BUY"
  else if score ≥ 15/100 then "BUY"
  else if score ≤ -(55/100) then "STRONG_SELL"
  else if score ≤ -(15/100) then "SELL"
  else "HOLD"

/-- `directionFromScore`. -/
def directionFromScore (score : ℚ) : String :=
  if score > 1/10 then "BULLISH"
  else if score < -(1/10) then "BEARISH"
  else "NEUTRAL"

/-- `confidenceLevelFromArticles` (thresholds 30 / 15). -/
def confidenceLevelFromArticles (totalArticles : ℤ) : String :=
  if totalArticles ≥ 30 then "HIGH"
  else if totalArticles ≥ 15 then "MEDIUM"
  else "LOW"

/-- A `prediction` / `prediction_snapshot` object of an arbitrary backend payload. -/
structure SrcObj where
  combined_score : Option ℚ := none
  final_signal : Option String := none
  direction : Option String := none
  confidence_level : Option String := none
  reasoning : Option String := none
  confidence : Option ℚ := none
  average_sentiment : Option ℚ := none
deriving DecidableEq

/-- An arbitrary (non-null) backend payload, as consumed by `normalizePrediction`.
`predictionField` models `raw.prediction`, which in the source is either an object
(`Sum.inl`) or a bare percent-like number (`Sum.inr`). -/
structure Item where
  ticker : Option String := none
  symbol : Option String := none
  company_name : Option String := none
  company : Option String := none
  total_articles : Option ℤ := none
  article_count : Option ℤ := none
  dsTotalArticles : Option ℤ := none
  dsGeneralArticles : Option ℤ := none
  average_sentiment : Option ℚ := none
  sentiment_score : Option ℚ := none
  predictionField : Option (SrcObj ⊕ ℚ) := none
  predictionSnapshot : Option SrcObj := none
  combined_score : Option ℚ := none
  signal_strength : Option ℚ := none
  final_signal : Option String := none
  direction : Option String := none
  confidence_level : Option String := none
  reasoning : Option String := none
  confidence : Option ℚ := none
  timestamp : Option String := none
  last_updated : Option String := none
deriving DecidableEq

/-- Case A of the source: `raw.prediction` when it is an object. -/
def predObjOf (raw : Item) : Option SrcObj :=
  match raw.predictionField with
  | some (Sum.inl o) => some o
  | _ => none

/-- Case C of the source: `raw.prediction` when it is a number. -/
def predNumberOf (raw : Item) : Option ℚ :=
  match raw.predictionField with
  | some (Sum.inr n) => some n
  | _ => none

/-- Field access through `source = predObj || snapshotObj || raw`. -/
def srcField {α : Type} (raw : Item) (f : SrcObj → Option α) (g : Item → Option α) : Option α :=
  match predObjOf raw with
  | some o => f o
  | none =>
    match raw.predictionSnapshot with
    | some o => f o
    | none => g raw

/-- `raw.total_articles ?? raw.article_count ?? raw.data_sources?.total_articles ??
raw.data_sources?.general_articles ?? 0`. -/
def totalArticlesOf (raw : Item) : ℤ :=
  (((raw.total_articles.orElse fun _ => raw.article_count).orElse
      fun _ => raw.dsTotalArticles).orElse fun _ => raw.dsGeneralArticles).getD 0

/-- `raw.average_sentiment ?? raw.sentiment_score ??
raw.prediction_snapshot?.average_sentiment ?? 0`. -/
def avgSentOf (raw : Item) : ℚ :=
  ((raw.average_sentiment.orElse fun _ => raw.sentiment_score).orElse
      fun _ => raw.predictionSnapshot.bind (·.average_sentiment)).getD 0

/-- The `combined_score` resolution cascade of `normalizePrediction` (lines 74-88 of the
source): source object score, flat score, `signal_strength` and numeric `prediction`
read as percentages, then sentiment as a last resort. -/
def resolvedScore (raw : Item) : ℚ :=
  match srcField raw (·.combined_score) (·.combined_score) with
  | some v => v
  | none =>
    match raw.combined_score with
    | some v => v
    | none =>
      match raw.signal_strength with
      | some v => clamp (v / 100) (-1) 1
      | none =>
        match predNumberOf raw with
        | some v => clamp (v / 100) (-1) 1
        | none => clamp (avgSentOf raw) (-1) 1

/-- Canonical nested prediction produced by this normalizer. -/
structure PredOut where
  final_signal : String
  direction : String
  combined_score : ℚ
  confidence_level : String
  reasoning : String
  confidence : ℚ
deriving DecidableEq

/-- Canonical record produced by this normalizer. -/
structure Rec where
  ticker : String
  company_name : String
  timestamp : String
  total_articles : ℤ
  average_sentiment : ℚ
  pred : PredOut
deriving DecidableEq

/-- `normalizePrediction(raw)` for a non-null payload (`null` input returns `null` in the
source and is excluded from the embedding); `now` stands for `new Date().toISOString()`. -/
def normalizePrediction (raw : Item) (now : String) : Rec :=
  let ticker := orD2 raw.ticker raw.symbol "N/A"
  let score := resolvedScore raw
  { ticker := ticker
    company_name := orD2 raw.company_name raw.company ticker
    timestamp := orD2 raw.timestamp raw.last_updated now
    total_articles := totalArticlesOf raw
    average_sentiment := avgSentOf raw
    pred :=
      { final_signal :=
          (truthy (srcField raw (·.final_signal) (·.final_signal))).getD
            (orD raw.final_signal (signalFromScore score))
        direction :=
          (truthy (srcField raw (·.direction) (·.direction))).getD
            (orD raw.direction (directionFromScore score))
        combined_score := clamp score (-1) 1
        confidence_level :=
          (truthy (srcField raw (·.confidence_level) (·.confidence_level))).getD
            (orD raw.confidence_level (confidenceLevelFromArticles (totalArticlesOf raw)))
        reasoning :=
          (truthy (srcField raw (·.reasoning) (·.reasoning))).getD
            (orD raw.reasoning "Analysis based on sentiment and market signals")
        confidence := nn2 (srcField raw (·.confidence) (·.confidence)) raw.confidence 0 } }

/-- The per-record body of `tickPredictions`: the two `Math.random()` draws and the
article delta are the explicit parameters `dScore ∈ [-0.15,0.15]`, `dSent ∈ [-0.10,0.10]`
and `dArt ∈ [-3,2]` (`Math.floor((Math.random()-0.5)*6)`). -/
def tickOne (item : Item) (now : String) (dScore dSent : ℚ) (dArt : ℤ) : Rec :=
  let base := normalizePrediction item now
  let nextScore := clamp (base.pred.combined_score + dScore) (-1) 1
  let nextSignal := signalFromScore nextScore
  let nextDirection := directionFromScore nextScore
  let nextSent := clamp (base.average_sentiment + dSent) (-1) 1
  let nextArticles := clampZ (base.total_articles + dArt) 1 60
  let nextConfLevel := confidenceLevelFromArticles nextArticles
  let reasoning :=
    if nextSignal = "STRONG_BUY" then
      "Very strong positive sentiment | Based on " ++ toString nextArticles ++ " articles"
    else if nextSignal = "BUY" then
      "Positive sentiment | Based on " ++ toString nextArticles ++ " articles"
    else if nextSignal = "STRONG_SELL" then
      "Very strong negative sentiment | Based on " ++ toString nextArticles ++ " articles"
    else if nextSignal = "SELL" then
      "Negative sentiment | Based on " ++ toString nextArticles ++ " articles"
    else "Neutral sentiment | Based on " ++ toString nextArticles ++ " articles"
  { base with
    timestamp := now
    total_articles := nextArticles
    average_sentiment := toFixed3 nextSent
    pred := { base.pred with
      combined_score := toFixed3 nextScore
      final_signal := nextSignal
      direction := nextDirection
      confidence_level := nextConfLevel
      reasoning := reasoning } }

/-- `tickPredictions(currentList)`: every record gets its own random draws. -/
def tickPredictions : List Item → String → (ℕ → ℚ × ℚ × ℤ) → List Rec
  | [], _, _ => []
  | x :: xs, now, d => tickOne x now (d 0).1 (d 0).2.1 (d 0).2.2 :: tickPredictions xs now (fun n => d (n + 1))

end Part002

namespace Part005
/-!
Embedding of the `usePredictions` hook (source file `src/unnamed/part_005`):
`normalizePrediction`, `applyIncomingButKeepLive`, `chooseSignalFromScore`,
`chooseDirection`, `chooseConfidenceLevel`, `buildReasoning`, `jitterOne` and
`mergeIncomingList` (including its JavaScript `Map`, modeled as an insertion-ordered
association list).
-/

/-- `clamp(v, min, max) = Math.min(max, Math.max(min, v))`. -/
def clamp (v mn mx : ℚ) : ℚ := min mx (max mn v)

/-- Integer clamp used for article counts. -/
def clampZ (v mn mx : ℤ) : ℤ := min mx (max mn v)

/-- The nested `prediction` object of a raw payload (all fields optional). -/
structure PredIn where
  combined_score : Option ℚ := none
  final_signal : Option String := none
  direction : Option String := none
  confidence_level : Option String := none
  reasoning : Option String := none
  confidence : Option ℚ := none
deriving DecidableEq

/-- A raw payload as consumed by this file's `normalizePrediction`; `nameAlt` models
`raw.name`. -/
structure Item where
  ticker : Option String := none
  symbol : Option String := none
  company_name : Option String := none
  nameAlt : Option String := none
  combined_score : Option ℚ := none
  final_signal : Option String := none
  direction : Option String := none
  confidence_level : Option String := none
  reasoning : Option String := none
  confidence : Option ℚ := none
  average_sentiment : Option ℚ := none
  sentiment_score : Option ℚ := none
  total_articles : Option ℤ := none
  article_count : Option ℤ := none
  dsTotalArticles : Option ℤ := none
  timestamp : Option String := none
  prediction : Option PredIn := none
deriving DecidableEq

/-- Canonical nested prediction produced by this file. -/
structure PredOut where
  combined_score : ℚ
  final_signal : String
  direction : String
  confidence_level : String
  reasoning : String
  confidence : ℚ
deriving DecidableEq

/-- Canonical record produced by this file (top-level `confidence` is kept as well). -/
structure Rec where
  ticker : String
  company_name : String
  average_sentiment : ℚ
  total_articles : ℤ
  confidence : ℚ
  timestamp : String
  pred : PredOut
deriving DecidableEq

/-- This file's `normalizePrediction(raw)` for a non-null payload; `now` stands for
`new Date().toISOString()`.  Note the nested fields use `??` (nullish), not `||`. -/
def normalizePrediction (raw : Item) (now : String) : Rec :=
  let nested := raw.prediction
  let ticker := orD2 raw.ticker raw.symbol "N/A"
  let confidence := nn2 (nested.bind (·.confidence)) raw.confidence 0
  { ticker := ticker
    company_name := orD2 raw.company_name raw.nameAlt ticker
    average_sentiment := nn2 raw.average_sentiment raw.sentiment_score 0
    total_articles :=
      ((raw.total_articles.orElse fun _ => raw.article_count).orElse
          fun _ => raw.dsTotalArticles).getD 0
    confidence := confidence
    timestamp := orD raw.timestamp now
    pred :=
      { combined_score := nn2 (nested.bind (·.combined_score)) raw.combined_score 0
        final_signal := nn2 (nested.bind (·.final_signal)) raw.final_signal "HOLD"
        direction := nn2 (nested.bind (·.direction)) raw.direction "NEUTRAL"
        confidence_level := nn2 (nested.bind (·.confidence_level)) raw.confidence_level "LOW"
        reasoning := nn2 (nested.bind (·.reasoning)) raw.reasoning "Insufficient data"
        confidence := confidence } }

/-- `applyIncomingButKeepLive(prevItem, incomingItem)`: live fields stay with `prev`,
only identity fields come from the incoming record. -/
def applyIncomingButKeepLive (prevItem : Option Rec) (incomingItem : Rec) : Rec :=
  match prevItem with
  | none => incomingItem
  | some prev =>
    { ticker := incomingItem.ticker
      company_name := jsOr incomingItem.company_name prev.company_name
      average_sentiment := prev.average_sentiment
      total_articles := prev.total_articles
      confidence := prev.confidence
      timestamp := prev.timestamp
      pred := { incomingItem.pred with
        combined_score := prev.pred.combined_score
        final_signal := prev.pred.final_signal
        direction := prev.pred.direction
        confidence_level := prev.pred.confidence_level
        reasoning := prev.pred.reasoning
        confidence := prev.pred.confidence } }

/-- This file's copy of the signal table: strict thresholds 0.6 / 0.25. -/
def chooseSignalFromScore (score : ℚ) : String :=
  if score > 6/10 then "STRONG_BUY"
  else if score > 25/100 then "BUY"
  else if score < -(6/10) then "STRONG_SELL"
  else if score < -(25/100) then "SELL"
  else "HOLD"

/-- `chooseDirection`. -/
def chooseDirection (score : ℚ) : String :=
  if score > 12/100 then "BULLISH"
  else if score < -(12/100) then "BEARISH"
  else "NEUTRAL"

/-- This file's confidence table: thresholds 30 / 12. -/
def chooseConfidenceLevel (articles : ℤ) : String :=
  if articles ≥ 30 then "HIGH"
  else if articles ≥ 12 then "MEDIUM"
  else "LOW"

/-- `buildReasoning(signal, score, articles)`. -/
def buildReasoning (signal : String) (score : ℚ) (articles : ℤ) : String :=
  let a := |score|
  if signal = "HOLD" then "Neutral sentiment | Based on " ++ toString articles ++ " articles"
  else if strIncludes signal "BUY" then
    if a > 55/100 then
      "Very strong positive sentiment | Based on " ++ toString articles ++ " articles"
    else "Positive sentiment | Based on " ++ toString articles ++ " articles"
  else
    if a > 55/100 then
      "Very strong negative sentiment | Based on " ++ toString articles ++ " articles"
    else "Negative sentiment | Based on " ++ toString articles ++ " articles"

/-- `jitterOne(p)`: one simulator tick; random draws are the explicit parameters
`dScore ∈ [-0.20,0.20]`, `dSent ∈ [-0.15,0.15]`, `dArt ∈ [-5,4]`. -/
def jitterOne (p : Rec) (now : String) (dScore dSent : ℚ) (dArt : ℤ) : Rec :=
  let newArticles := clampZ (p.total_articles + dArt) 1 60
  let newScore := clamp (p.pred.combined_score + dScore) (-1) 1
  let newSent := clamp (p.average_sentiment + dSent) (-1) 1
  let final_signal := chooseSignalFromScore newScore
  { p with
    total_articles := newArticles
    average_sentiment := newSent
    timestamp := now
    pred := { p.pred with
      combined_score := newScore
      final_signal := final_signal
      direction := chooseDirection newScore
      confidence_level := chooseConfidenceLevel newArticles
      reasoning := buildReasoning final_signal newScore newArticles } }

/-- The JavaScript `Map` of `mergeIncomingList`: an insertion-ordered association list. -/
abbrev OMap := List (String × Rec)

/-- `Map.has`: whether a key is present. -/
def hasKey (m : OMap) (k : String) : Bool := m.any (fun e => e.1 == k)

/-- `Map.set`: replace in place if the key exists, otherwise append. -/
def omapSet (m : OMap) (k : String) (v : Rec) : OMap :=
  if hasKey m k then
    m.map (fun e => if e.1 == k then (k, v) else e)
  else m ++ [(k, v)]

/-- `Map.get`. -/
def omapGet (m : OMap) (k : String) : Option Rec :=
  (m.find? (fun e => e.1 == k)).map (·.2)

/-- `new Map(prev.map(x => [x.ticker, x]))`, built by successive `set` calls. -/
def buildMap (l : List Rec) : OMap := l.foldl (fun m x => omapSet m x.ticker x) []

/-- The `for (const inc of incomingList)` loop of `mergeIncomingList`. -/
def foldIncoming (m : OMap) (incoming : List Rec) : OMap :=
  incoming.foldl
    (fun m inc => omapSet m inc.ticker (applyIncomingButKeepLive (omapGet m inc.ticker) inc)) m

/-- `mergeIncomingList(incomingList)` acting on the previous collection `prev`. -/
def mergeIncomingList (prev incoming : List Rec) : List Rec :=
  (foldIncoming (buildMap prev) incoming).map (·.2)

/-- The invariant that every map entry's key is its record's ticker. -/
def keyed (m : OMap) : Prop := ∀ e ∈ m, e.1 = e.2.ticker

end Part005

namespace Server
/-!
Embedding of the `GET /api/predictions/daily` handler of `src/api_service/server.js`.
The directory read (`fs.readdir`) is modeled as `Option (List DirFile)`: `none` when the
directory does not exist (ENOENT makes `readdir` throw, landing in the outer `catch`),
`some files` otherwise.  A file's `JSON.parse` outcome is part of its `DirFile` entry.
-/

/-- The parsed content of a prediction file, reduced to the fields the handler tests
(`pred.ticker && pred.prediction`): the ticker string (empty = falsy/missing) and
whether a truthy `prediction` value is present. -/
structure PredFile where
  ticker : String
  hasPred : Bool
deriving DecidableEq

/-- One directory entry: its file name and its parse result (`none` = JSON.parse threw,
the entry is skipped). -/
structure DirFile where
  name : String
  parsed : Option PredFile
deriving DecidableEq

/-- The hard-coded `COMPANY_MAP`. -/
def companyMap (t : String) : Option String :=
  if t = "MSFT" then some "Microsoft"
  else if t = "AAPL" then some "Apple"
  else if t = "GOOGL" then some "Alphabet"
  else if t = "AMZN" then some "Amazon"
  else if t = "TSLA" then some "Tesla"
  else if t = "NVDA" then some "NVIDIA"
  else if t = "META" then some "Meta"
  else if t = "NFLX" then some "Netflix"
  else if t = "BABA" then some "Alibaba"
  else if t = "AMD" then some "AMD"
  else if t = "INTC" then some "Intel"
  else if t = "CRM" then some "Salesforce"
  else if t = "UNP" then some "Union Pacific"
  else if t = "FDX" then some "FedEx"
  else if t = "UPS" then some "UPS"
  else if t = "XPO" then some "XPO"
  else if t = "CHRW" then some "C.H. Robinson"
  else if t = "DPW_DE" then some "DHL"
  else if t = "AMKBY" then some "Ambev"
  else if t = "GXO" then some "GXO"
  else none

/-- `file.replace('_prediction.json', '')`. -/
def tickerOfName (name : String) : String := strReplaceFirst name "_prediction.json" ""

/-- The body of the `for (const file of files)` loop: `none` when the entry is skipped. -/
def entryOut (f : DirFile) : Option (PredFile × String) :=
  if strEndsWith f.name "_prediction.json" then
    match f.parsed with
    | some p =>
      if p.ticker ≠ "" ∧ p.hasPred then
        some (p, (companyMap (tickerOfName f.name)).getD (tickerOfName f.name))
      else none
    | none => none
  else none

/-- The two possible HTTP outcomes of the handler. -/
inductive DailyResponse where
  | ok : List (PredFile × String) → ℕ → DailyResponse
  | serverError : DailyResponse
deriving DecidableEq

/-- The `GET /api/predictions/daily` handler. -/
def predictionsDaily (dir : Option (List DirFile)) : DailyResponse :=
  match dir with
  | none => DailyResponse.serverError
  | some files =>
    let predictions := files.filterMap entryOut
    DailyResponse.ok predictions predictions.length

end Server

namespace SpecTable
/-!
Reference definitions written from the specification's words (section 4.1), used only to
compare the source's duplicated threshold tables against the single table the spec
mandates.
-/

/-- Modelled from the spec: the signal threshold table of section 4.1 with its
policy-configurable BUY threshold ("score ≥ 0.55 → STRONG_BUY; ≥ 0.15 (or 0.12,
policy-configurable) → BUY; ≤ -0.55 → STRONG_SELL; ≤ -0.15 → SELL; else HOLD"). -/
def signal (buyThr s : ℚ) : String :=
  if s ≥ 55/100 then "STRONG_BUY"
  else if s ≥ buyThr then "BUY"
  else if s ≤ -(55/100) then "STRONG_SELL"
  else if s ≤ -buyThr then "SELL"
  else "HOLD"

/-- Modelled from the spec: the confidence table of section 4.1
("articleCount ≥ 30 → HIGH; ≥ 15 → MEDIUM; else LOW"). -/
def confidence (articleCount : ℤ) : String :=
  if articleCount ≥ 30 then "HIGH"
  else if articleCount ≥ 15 then "MEDIUM"
  else "LOW"

end SpecTable

/-! Concrete sample data used by counterexamples and witnesses. -/

/-- A current-collection record: MSFT with score 0.2, a real company name, 50 articles. -/
def msftPrev : Part000.Rec :=
  { ticker := "MSFT"
    company_name := "Microsoft Corporation"
    timestamp := "t0"
    total_articles := 50
    average_sentiment := 1/10
    pred :=
      { final_signal := "BUY"
        direction := "BULLISH"
        combined_score := 2/10
        confidence_level := "HIGH"
        reasoning := "r0" }
    simulated := true }

/-- A poll-snapshot item carrying MSFT with score 0.5. -/
def msftItem05 : Part000.Item :=
  { ticker := some "MSFT", prediction := some { combined_score := some (5/10) } }

/-- A poll-snapshot item carrying TSLA with score -0.7. -/
def tslaItem07 : Part000.Item :=
  { ticker := some "TSLA", prediction := some { combined_score := some (-(7/10)) } }

/-- A push/poll item for MSFT that carries no company name at all. -/
def bareMsftItem : Part000.Item := { ticker := some "MSFT" }

/-- A simulator-produced record whose score is 0 (for the confidence-derivation claim). -/
def lowScoreRec : Part000.Rec :=
  { msftPrev with ticker := "AAA", pred := { msftPrev.pred with combined_score := 0 } }

/-- A simulator-produced record whose score is 0.9 and whose article count equals
`lowScoreRec`'s. -/
def highScoreRec : Part000.Rec :=
  { msftPrev with ticker := "BBB", pred := { msftPrev.pred with combined_score := 9/10 } }

/-- A payload carrying the score nested as `prediction.combined_score`. -/
def shapeNested (t : String) (s : ℚ) : Part002.Item :=
  { ticker := some t, predictionField := some (Sum.inl { combined_score := some s }) }

/-- A payload carrying the score as flat `combined_score`. -/
def shapeFlat (t : String) (s : ℚ) : Part002.Item :=
  { ticker := some t, combined_score := some s }

/-- A payload carrying the score as percentage-scaled `signal_strength`. -/
def shapePct (t : String) (s : ℚ) : Part002.Item :=
  { ticker := some t, signal_strength := some (100 * s) }

/-- Records within the bounds the spec demands: score and sentiment in [-1, 1] and
article count in [0, 200] (part_000 record shape). -/
def withinBounds000 (r : Part000.Rec) : Prop :=
  -1 ≤ r.pred.combined_score ∧ r.pred.combined_score ≤ 1 ∧
  -1 ≤ r.average_sentiment ∧ r.average_sentiment ≤ 1 ∧
  0 ≤ r.total_articles ∧ r.total_articles ≤ 200

/-- The same bounds for the part_002 record shape. -/
def withinBounds002 (r : Part002.Rec) : Prop :=
  -1 ≤ r.pred.combined_score ∧ r.pred.combined_score ≤ 1 ∧
  -1 ≤ r.average_sentiment ∧ r.average_sentiment ≤ 1 ∧
  0 ≤ r.total_articles ∧ r.total_articles ≤ 200

/-- A snapshot item repeating ticker AAA with score 0.1. -/
def dupItemA : Part000.Item :=
  { ticker := some "AAA", prediction := some { combined_score := some (1/10) } }

/-- A snapshot item repeating ticker AAA with score 0.3. -/
def dupItemB : Part000.Item :=
  { ticker := some "AAA", prediction := some { combined_score := some (3/10) } }

/-- A part_005 collection record with ticker AAA. -/
def recA005 : Part005.Rec :=
  { ticker := "AAA"
    company_name := "Alpha"
    average_sentiment := 0
    total_articles := 10
    confidence := 0
    timestamp := "t0"
    pred :=
      { combined_score := 0
        final_signal := "HOLD"
        direction := "NEUTRAL"
        confidence_level := "LOW"
        reasoning := "r"
        confidence := 0 } }

/-- A part_005 incoming record with ticker BBB. -/
def recB005 : Part005.Rec :=
  { recA005 with ticker := "BBB", company_name := "Beta" }

/-- A part_000 collection record with ticker AAA. -/
def recA000 : Part000.Rec := { msftPrev with ticker := "AAA" }

/-- A part_000 collection record with ticker BBB. -/
def recB000 : Part000.Rec := { msftPrev with ticker := "BBB" }

/-- A snapshot item with bare ticker AAA. -/
def itemA000 : Part000.Item := { ticker := some "AAA" }

/-- A snapshot item with bare ticker BBB. -/
def itemB000 : Part000.Item := { ticker := some "BBB" }

namespace Part000

theorem normalizeOne_ticker (a : Item) (now : String) :
    (normalizeOne a now).ticker = itemTicker a := rfl

theorem normalizeOne_company (a : Item) (now : String) :
    (normalizeOne a now).company_name = orD2 a.company_name a.ticker "N/A" := rfl

end Part000

theorem orD_ne_empty (a : Option String) (d : String) (hd : d ≠ "") : orD a d ≠ "" := by
  unfold orD truthy
  cases a with
  | none => exact hd
  | some s =>
    by_cases h : s = ""
    · subst h
      simp [hd]
    · simp [h]

theorem truthy_some_ne {a : Option String} {s : String} (h : truthy a = some s) : s ≠ "" := by
  cases a with
  | none => simp [truthy] at h
  | some x =>
    by_cases hx : x = ""
    · simp [truthy, hx] at h
    · simp [truthy, hx] at h
      exact h ▸ hx

theorem orD2_ne_empty (a b : Option String) (d : String) (hd : d ≠ "") :
    orD2 a b d ≠ "" := by
  unfold orD2
  cases h : truthy a with
  | none => exact orD_ne_empty b d hd
  | some s => exact truthy_some_ne h

theorem bool_eq_of_iff {b c : Bool} (h : b = true ↔ c = true) : b = c := by
  cases b <;> cases c <;> simp_all

namespace Part000

theorem normalizeOne_company_ne (a : Item) (now : String) :
    (normalizeOne a now).company_name ≠ "" :=
  orD2_ne_empty _ _ _ (by decide)

theorem mergeEntry_ticker (prev : List Rec) (now : String) (a : Item) :
    (mergeEntry prev now a).ticker = itemTicker a := by
  cases h : mapLookup prev (normalizeOne a now).ticker <;>
    simp only [mergeEntry, h] <;> rfl

theorem mergeEntry_company (prev : List Rec) (now : String) (a : Item) :
    (mergeEntry prev now a).company_name = (normalizeOne a now).company_name := by
  cases h : mapLookup prev (normalizeOne a now).ticker with
  | none => simp only [mergeEntry, h]
  | some p =>
    simp only [mergeEntry, h]
    unfold jsOr
    rw [if_neg (normalizeOne_company_ne a now)]

theorem mergeEntry_of_lookup {prev : List Rec} {now : String} {a : Item} {p : Rec}
    (h : mapLookup prev (normalizeOne a now).ticker = some p) :
    mergeEntry prev now a =
      { p with ticker := (normalizeOne a now).ticker
               company_name := jsOr (normalizeOne a now).company_name p.company_name } := by
  unfold mergeEntry
  rw [h]

theorem mapLookup_append (l1 l2 : List Rec) (t : String) :
    mapLookup (l1 ++ l2) t =
      match mapLookup l2 t with
      | some x => some x
      | none => mapLookup l1 t := by
  induction l1 with
  | nil =>
    simp only [List.nil_append]
    cases mapLookup l2 t <;> rfl
  | cons r rest ih =>
    show (match mapLookup (rest ++ l2) t with
      | some x => some x
      | none => if r.ticker == t then some r else none) = _
    rw [ih]
    cases h2 : mapLookup l2 t with
    | some x => rfl
    | none => rfl

theorem mapLookup_eq_none {l : List Rec} {t : String} (h : ∀ r ∈ l, r.ticker ≠ t) :
    mapLookup l t = none := by
  induction l with
  | nil => rfl
  | cons r rest ih =>
    have hr : r.ticker ≠ t := h r (by simp)
    simp only [mapLookup, ih (fun x hx => h x (by simp [hx]))]
    simp [hr]

theorem mapLookup_map_unique (g : Item → Rec) (hg : ∀ x, (g x).ticker = itemTicker x)
    (api : List Item) (hnd : (api.map itemTicker).Nodup) {a : Item} (ha : a ∈ api) :
    mapLookup (api.map g) (itemTicker a) = some (g a) := by
  induction api with
  | nil => cases ha
  | cons b rest ih =>
    have hnd' : itemTicker b ∉ rest.map itemTicker ∧ (rest.map itemTicker).Nodup := by
      rw [List.map_cons] at hnd
      exact List.nodup_cons.mp hnd
    rcases List.mem_cons.mp ha with rfl | har
    · have hnone : mapLookup (rest.map g) (itemTicker a) = none := by
        apply mapLookup_eq_none
        intro r hr
        rcases List.mem_map.mp hr with ⟨x, hx, rfl⟩
        rw [hg]
        intro hcon
        exact hnd'.1 (hcon ▸ List.mem_map_of_mem _ hx)
      show (match mapLookup (rest.map g) (itemTicker a) with
        | some x => some x
        | none => if (g a).ticker == itemTicker a then some (g a) else none) = some (g a)
      rw [hnone, hg a]
      simp
    · have hres := ih hnd'.2 har
      show (match mapLookup (rest.map g) (itemTicker a) with
        | some x => some x
        | none => if (g b).ticker == itemTicker a then some (g b) else none) = some (g a)
      rw [hres]

theorem tickers_map_filter (l : List Rec) (p : String → Bool) :
    (l.filter (fun r => p r.ticker)).map (·.ticker) = (l.map (·.ticker)).filter p := by
  induction l with
  | nil => rfl
  | cons r rest ih =>
    by_cases h : p r.ticker = true <;>
      simp [List.filter_cons, h, ih]

theorem stableMerge_tickers (prev : List Rec) (api : List Item) (now : String) :
    (stableMerge prev api now).map (·.ticker) =
      api.map itemTicker ++
        (prev.map (·.ticker)).filter (fun t => ! (api.map itemTicker).contains t) := by
  unfold stableMerge
  have hA : (api.map (mergeEntry prev now)).map (·.ticker) = api.map itemTicker := by
    rw [List.map_map]
    exact List.map_congr_left (fun a _ => mergeEntry_ticker prev now a)
  rw [List.map_append, hA]
  congr 1
  exact tickers_map_filter prev (fun t => ! (api.map itemTicker).contains t)

theorem stableMerge_idem (prev : List Rec) (api : List Item) (now now2 : String)
    (hnd : (api.map itemTicker).Nodup) :
    stableMerge (stableMerge prev api now) api now2 = stableMerge prev api now := by
  have hA : (api.map (mergeEntry prev now)).map (·.ticker) = api.map itemTicker := by
    rw [List.map_map]
    exact List.map_congr_left (fun a _ => mergeEntry_ticker prev now a)
  have hTick : ∀ a ∈ api,
      mergeEntry (stableMerge prev api now) now2 a = mergeEntry prev now a := by
    intro a ha
    have hEnone :
        mapLookup (prev.filter
            (fun p => ! ((api.map (mergeEntry prev now)).map (·.ticker)).contains p.ticker))
          (itemTicker a) = none := by
      apply mapLookup_eq_none
      intro r hr
      have hpred := (List.mem_filter.mp hr).2
      intro hcon
      have hmem : itemTicker a ∈ (api.map (mergeEntry prev now)).map (·.ticker) := by
        rw [hA]
        exact List.mem_map_of_mem _ ha
      rw [hcon] at hpred
      have hni : itemTicker a ∉ (api.map (mergeEntry prev now)).map (·.ticker) := by
        simpa using hpred
      exact hni hmem
    have hAa : mapLookup (api.map (mergeEntry prev now)) (itemTicker a) =
        some (mergeEntry prev now a) :=
      mapLookup_map_unique (mergeEntry prev now) (mergeEntry_ticker prev now) api hnd ha
    have hMa : mapLookup (stableMerge prev api now) (itemTicker a) =
        some (mergeEntry prev now a) := by
      show mapLookup (_ ++ _) _ = _
      rw [mapLookup_append, hEnone, hAa]
    have hMa' : mapLookup (stableMerge prev api now) (normalizeOne a now2).ticker =
        some (mergeEntry prev now a) := hMa
    have h2 : (mergeEntry prev now a).company_name = (normalizeOne a now).company_name :=
      mergeEntry_company prev now a
    have h4 : jsOr (normalizeOne a now2).company_name
        (mergeEntry prev now a).company_name = (mergeEntry prev now a).company_name := by
      rw [show (normalizeOne a now2).company_name = (normalizeOne a now).company_name
        from rfl, h2]
      unfold jsOr
      rw [if_neg (normalizeOne_company_ne a now)]
    rw [mergeEntry_of_lookup hMa', h4,
      show (normalizeOne a now2).ticker = (mergeEntry prev now a).ticker from
        (mergeEntry_ticker prev now a).symm]
  have hA2 : api.map (mergeEntry (stableMerge prev api now) now2) =
      api.map (mergeEntry prev now) :=
    List.map_congr_left hTick
  show (api.map (mergeEntry (stableMerge prev api now) now2)) ++ _ = _
  rw [hA2]
  unfold stableMerge
  congr 1
  rw [List.filter_append]
  have hAnil : (api.map (mergeEntry prev now)).filter
      (fun p => ! ((api.map (mergeEntry prev now)).map (·.ticker)).contains p.ticker) =
      [] := by
    apply List.filter_eq_nil_iff.mpr
    intro x hx
    simp only [Bool.not_eq_true, Bool.not_not]
    have : x.ticker ∈ (api.map (mergeEntry prev now)).map (·.ticker) :=
      List.mem_map_of_mem _ hx
    simpa using this
  have hEfull : (prev.filter
        (fun p => ! ((api.map (mergeEntry prev now)).map (·.ticker)).contains p.ticker)).filter
      (fun p => ! ((api.map (mergeEntry prev now)).map (·.ticker)).contains p.ticker) =
      prev.filter
        (fun p => ! ((api.map (mergeEntry prev now)).map (·.ticker)).contains p.ticker) := by
    apply List.filter_eq_self.mpr
    intro x hx
    exact (List.mem_filter.mp hx).2
  rw [hAnil, hEfull, List.nil_append]

end Part000

namespace Part005

theorem hasKey_iff {m : OMap} {k : String} : hasKey m k = true ↔ k ∈ m.map (·.1) := by
  rw [show hasKey m k = m.any (fun e => e.1 == k) from rfl, List.any_eq_true]
  constructor
  · rintro ⟨e, he, hek⟩
    exact (beq_iff_eq.mp hek) ▸ List.mem_map_of_mem (·.1) he
  · intro hk
    rcases List.mem_map.mp hk with ⟨e, he, rfl⟩
    exact ⟨e, he, beq_iff_eq.mpr rfl⟩

theorem hasKey_keys (m : OMap) (t : String) :
    hasKey m t = (m.map (·.1)).any (fun s => s == t) := by
  induction m with
  | nil => rfl
  | cons e rest ih =>
    show ((e.1 == t) || hasKey rest t) = ((e.1 == t) || (rest.map (·.1)).any (fun s => s == t))
    rw [ih]

theorem hasKey_append (m1 m2 : OMap) (k : String) :
    hasKey (m1 ++ m2) k = (hasKey m1 k || hasKey m2 k) := by
  simp [hasKey, List.any_append]

theorem keys_omapSet_pos {m : OMap} {k : String} (v : Rec) (h : hasKey m k = true) :
    (omapSet m k v).map (·.1) = m.map (·.1) := by
  unfold omapSet
  rw [if_pos h, List.map_map]
  apply List.map_congr_left
  intro e _
  by_cases hek : (e.1 == k) = true
  · simp [beq_iff_eq.mp hek]
  · have hek' : e.1 ≠ k := by simpa using hek
    simp [hek']

theorem keys_omapSet_neg {m : OMap} {k : String} (v : Rec) (h : hasKey m k = false) :
    (omapSet m k v).map (·.1) = m.map (·.1) ++ [k] := by
  unfold omapSet
  rw [if_neg (by simp [h])]
  simp

theorem find_cons_pos {α : Type} (p : α → Bool) (a : α) (l : List α) (h : p a = true) :
    (a :: l).find? p = some a := by
  simp [List.find?, h]

theorem find_cons_neg {α : Type} (p : α → Bool) (a : α) (l : List α) (h : p a = false) :
    (a :: l).find? p = l.find? p := by
  simp [List.find?, h]

theorem find_map_set (m : OMap) (k : String) (v : Rec) (h : hasKey m k = true) :
    (m.map (fun e => if e.1 == k then (k, v) else e)).find? (fun e => e.1 == k) =
      some (k, v) := by
  induction m with
  | nil => cases h
  | cons e rest ih =>
    rw [List.map_cons]
    cases he : (e.1 == k) with
    | true =>
      rw [if_pos rfl]
      exact find_cons_pos (fun e => e.1 == k) (k, v) _ (by simp)
    | false =>
      rw [if_neg (by simp)]
      rw [find_cons_neg (fun e => e.1 == k) e _ he]
      refine ih ?_
      have hstep : ((e.1 == k) || hasKey rest k) = true := h
      rw [he] at hstep
      simpa using hstep

theorem find_map_irrel (m : OMap) (k k' : String) (v : Rec) (h : k' ≠ k) :
    (m.map (fun e => if e.1 == k then (k, v) else e)).find? (fun e => e.1 == k') =
      m.find? (fun e => e.1 == k') := by
  have h2 : (((k, v) : String × Rec).1 == k') = false := by
    simp only [beq_eq_false_iff_ne, ne_eq]
    exact fun hc => h hc.symm
  induction m with
  | nil => rfl
  | cons e rest ih =>
    rw [List.map_cons]
    cases he : (e.1 == k) with
    | true =>
      have h3 : (e.1 == k') = false := by
        rw [show e.1 = k from beq_iff_eq.mp he]
        exact h2
      rw [if_pos rfl, find_cons_neg (fun e => e.1 == k') (k, v) _ h2,
        find_cons_neg (fun e => e.1 == k') e _ h3, ih]
    | false =>
      rw [if_neg (by simp)]
      cases hek' : (e.1 == k') with
      | true =>
        rw [find_cons_pos (fun e => e.1 == k') e _ hek',
          find_cons_pos (fun e => e.1 == k') e _ hek']
      | false =>
        rw [find_cons_neg (fun e => e.1 == k') e _ hek',
          find_cons_neg (fun e => e.1 == k') e _ hek', ih]

theorem find_append_single (m : OMap) (k k' : String) (v : Rec) (h : k' ≠ k) :
    (m ++ [(k, v)]).find? (fun e => e.1 == k') = m.find? (fun e => e.1 == k') := by
  have h2 : (((k, v) : String × Rec).1 == k') = false := by
    simp only [beq_eq_false_iff_ne, ne_eq]
    exact fun hc => h hc.symm
  induction m with
  | nil =>
    rw [List.nil_append, find_cons_neg (fun e => e.1 == k') (k, v) _ h2]
  | cons e rest ih =>
    rw [List.cons_append]
    cases he : (e.1 == k') with
    | true =>
      rw [find_cons_pos (fun e => e.1 == k') e _ he,
        find_cons_pos (fun e => e.1 == k') e _ he]
    | false =>
      rw [find_cons_neg (fun e => e.1 == k') e _ he,
        find_cons_neg (fun e => e.1 == k') e _ he, ih]

theorem omapGet_set_self (m : OMap) (k : String) (v : Rec) :
    omapGet (omapSet m k v) k = some v := by
  by_cases h : hasKey m k = true
  · unfold omapGet omapSet
    rw [if_pos h, find_map_set m k v h]
    rfl
  · have h' : hasKey m k = false := by
      cases hh : hasKey m k
      · rfl
      · exact absurd hh h
    unfold omapGet omapSet
    rw [if_neg (by simp [h'])]
    have hnone : m.find? (fun e => e.1 == k) = none := by
      apply List.find?_eq_none.mpr
      intro e he hek
      have hmem : hasKey m k = true := by
        show m.any (fun e => e.1 == k) = true
        rw [List.any_eq_true]
        exact ⟨e, he, hek⟩
      rw [h'] at hmem
      cases hmem
    rw [List.find?_append, hnone]
    show (List.find? (fun e => e.1 == k) [(k, v)]).map (·.2) = some v
    rw [find_cons_pos (fun e => e.1 == k) (k, v) _ (by simp)]
    rfl

theorem omapGet_set_ne (m : OMap) (k k' : String) (v : Rec) (h : k' ≠ k) :
    omapGet (omapSet m k v) k' = omapGet m k' := by
  unfold omapGet omapSet
  by_cases hk : hasKey m k = true
  · rw [if_pos hk, find_map_irrel m k k' v h]
  · rw [if_neg hk, find_append_single m k k' v h]

theorem keys_nodup_omapSet {m : OMap} (k : String) (v : Rec)
    (h : (m.map (·.1)).Nodup) : ((omapSet m k v).map (·.1)).Nodup := by
  cases hk : hasKey m k with
  | true =>
    rw [keys_omapSet_pos v hk]
    exact h
  | false =>
    rw [keys_omapSet_neg v hk]
    rw [List.nodup_append]
    refine ⟨h, List.nodup_singleton _, ?_⟩
    intro a ha hmem
    rw [List.mem_singleton.mp hmem] at ha
    have : hasKey m k = true := hasKey_iff.mpr ha
    rw [hk] at this
    cases this

theorem keyed_omapSet {m : OMap} (hm : keyed m) {k : String} {v : Rec}
    (hv : v.ticker = k) : keyed (omapSet m k v) := by
  unfold omapSet
  by_cases hk : hasKey m k = true
  · rw [if_pos hk]
    intro e he
    rcases List.mem_map.mp he with ⟨x, hx, rfl⟩
    by_cases hxk : (x.1 == k) = true
    · simp only [hxk, if_true]
      exact hv.symm
    · simp only [hxk, if_false]
      exact hm x hx
  · rw [if_neg hk]
    intro e he
    rcases List.mem_append.mp he with h1 | h1
    · exact hm e h1
    · rw [List.mem_singleton.mp h1]
      exact hv.symm

theorem applyIncoming_ticker (x : Option Rec) (i : Rec) :
    (applyIncomingButKeepLive x i).ticker = i.ticker := by
  cases x <;> rfl

theorem foldIncoming_keyed (incoming : List Rec) :
    ∀ m : OMap, keyed m → keyed (foldIncoming m incoming) := by
  induction incoming with
  | nil => exact fun m hm => hm
  | cons i rest ih =>
    intro m hm
    exact ih _ (keyed_omapSet hm (applyIncoming_ticker _ i))

theorem foldIncoming_keys_nodup (incoming : List Rec) :
    ∀ m : OMap, (m.map (·.1)).Nodup → ((foldIncoming m incoming).map (·.1)).Nodup := by
  induction incoming with
  | nil => exact fun m h => h
  | cons i rest ih =>
    intro m h
    exact ih _ (keys_nodup_omapSet _ _ h)

theorem foldIncoming_keys :
    ∀ (incoming : List Rec) (m : OMap), (incoming.map (·.ticker)).Nodup →
    (foldIncoming m incoming).map (·.1) =
      m.map (·.1) ++ (incoming.map (·.ticker)).filter (fun t => ! hasKey m t) := by
  intro incoming
  induction incoming with
  | nil =>
    intro m _
    simp [foldIncoming]
  | cons i rest ih =>
    intro m hni
    have hcons : i.ticker ∉ rest.map (·.ticker) ∧ (rest.map (·.ticker)).Nodup := by
      rw [List.map_cons] at hni
      exact List.nodup_cons.mp hni
    show (foldIncoming
        (omapSet m i.ticker (applyIncomingButKeepLive (omapGet m i.ticker) i)) rest).map
        (·.1) = _
    rw [ih _ hcons.2]
    cases hk : hasKey m i.ticker with
    | true =>
      rw [keys_omapSet_pos _ hk]
      have hcongr : ∀ t ∈ rest.map (·.ticker),
          (! hasKey (omapSet m i.ticker (applyIncomingButKeepLive (omapGet m i.ticker) i)) t) =
          (! hasKey m t) := by
        intro t _
        rw [hasKey_keys, hasKey_keys,
          keys_omapSet_pos (applyIncomingButKeepLive (omapGet m i.ticker) i) hk]
      rw [List.filter_congr hcongr, List.map_cons, List.filter_cons]
      simp [hk]
    | false =>
      rw [keys_omapSet_neg _ hk]
      have hcongr : ∀ t ∈ rest.map (·.ticker),
          (! hasKey (omapSet m i.ticker (applyIncomingButKeepLive (omapGet m i.ticker) i)) t) =
          (! hasKey m t) := by
        intro t ht
        rw [hasKey_keys, hasKey_keys,
          keys_omapSet_neg (applyIncomingButKeepLive (omapGet m i.ticker) i) hk,
          List.any_append]
        have hne : (i.ticker == t) = false := by
          simp [beq_iff_eq]
          exact fun hc => hcons.1 (hc ▸ ht)
        simp [hne]
      rw [List.filter_congr hcongr, List.map_cons, List.filter_cons]
      simp only [hk, Bool.not_false, if_true]
      simp [List.append_assoc]

theorem foldIncoming_get_absent :
    ∀ (incoming : List Rec) (m : OMap) (t : String),
    (∀ i ∈ incoming, i.ticker ≠ t) → omapGet (foldIncoming m incoming) t = omapGet m t := by
  intro incoming
  induction incoming with
  | nil => intro m t _; rfl
  | cons i rest ih =>
    intro m t h
    show omapGet (foldIncoming
      (omapSet m i.ticker (applyIncomingButKeepLive (omapGet m i.ticker) i)) rest) t = _
    rw [ih _ t (fun x hx => h x (List.mem_cons_of_mem _ hx))]
    exact omapGet_set_ne m i.ticker t _
      (fun hc => h i (List.mem_cons_self _ _) hc.symm)

theorem foldIncoming_get :
    ∀ (incoming : List Rec) (m : OMap), (incoming.map (·.ticker)).Nodup →
    ∀ i ∈ incoming,
    omapGet (foldIncoming m incoming) i.ticker =
      some (applyIncomingButKeepLive (omapGet m i.ticker) i) := by
  intro incoming
  induction incoming with
  | nil => intro m _ i hi; cases hi
  | cons j rest ih =>
    intro m hnd i hi
    have hcons : j.ticker ∉ rest.map (·.ticker) ∧ (rest.map (·.ticker)).Nodup := by
      rw [List.map_cons] at hnd
      exact List.nodup_cons.mp hnd
    rcases List.mem_cons.mp hi with rfl | hir
    · show omapGet (foldIncoming
        (omapSet m i.ticker (applyIncomingButKeepLive (omapGet m i.ticker) i)) rest)
        i.ticker = _
      rw [foldIncoming_get_absent rest _ i.ticker
        (fun x hx hc => hcons.1 (hc ▸ List.mem_map_of_mem (·.ticker) hx))]
      exact omapGet_set_self m i.ticker _
    · have hne : i.ticker ≠ j.ticker :=
        fun hc => hcons.1 (hc ▸ List.mem_map_of_mem (·.ticker) hir)
      show omapGet (foldIncoming
        (omapSet m j.ticker (applyIncomingButKeepLive (omapGet m j.ticker) j)) rest)
        i.ticker = _
      rw [ih _ hcons.2 i hir,
        omapGet_set_ne m j.ticker i.ticker _ hne]

theorem jsOr_absorb_local (a b : String) : jsOr a (jsOr a b) = jsOr a b := by
  by_cases h : a = "" <;> simp [jsOr, h]

theorem applyIncoming_absorb (x : Option Rec) (i : Rec) :
    applyIncomingButKeepLive (some (applyIncomingButKeepLive x i)) i =
      applyIncomingButKeepLive x i := by
  cases x with
  | none =>
    show applyIncomingButKeepLive (some i) i = i
    cases i with
    | mk t cn sent arts conf ts pred =>
      cases pred
      simp [applyIncomingButKeepLive, jsOr, ite_self]
  | some p =>
    simp [applyIncomingButKeepLive, jsOr_absorb_local]

theorem mem_unique_key :
    ∀ (m : OMap), (m.map (·.1)).Nodup →
    ∀ e ∈ m, ∀ x ∈ m, x.1 = e.1 → x = e := by
  intro m
  induction m with
  | nil => intro _ e he; cases he
  | cons a rest ih =>
    intro hnd e he x hx hxe
    have hcons : a.1 ∉ rest.map (·.1) ∧ (rest.map (·.1)).Nodup := by
      rw [List.map_cons] at hnd
      exact List.nodup_cons.mp hnd
    rcases List.mem_cons.mp he with rfl | her
    · rcases List.mem_cons.mp hx with rfl | hxr
      · rfl
      · have : e.1 ∈ rest.map (·.1) := hxe ▸ List.mem_map_of_mem (·.1) hxr
        exact absurd this hcons.1
    · rcases List.mem_cons.mp hx with rfl | hxr
      · have : x.1 ∈ rest.map (·.1) := by
          rw [hxe]
          exact List.mem_map_of_mem (·.1) her
        exact absurd this hcons.1
      · exact ih hcons.2 e her x hxr hxe

theorem get_mem {m : OMap} {k : String} {v : Rec} (h : omapGet m k = some v) :
    (k, v) ∈ m := by
  unfold omapGet at h
  rcases Option.map_eq_some'.mp h with ⟨e, hfind, hev⟩
  have hpe := List.find?_some hfind
  have hmem := List.mem_of_find?_eq_some hfind
  have h1 : e.1 = k := beq_iff_eq.mp hpe
  have hkv : (k, v) = e := by
    rw [← h1, ← hev]
  rw [hkv]
  exact hmem

theorem omapSet_get_self_eq {m : OMap} (hnd : (m.map (·.1)).Nodup) {k : String} {v : Rec}
    (h : omapGet m k = some v) : omapSet m k v = m := by
  have hmem := get_mem h
  have hk : hasKey m k = true := hasKey_iff.mpr (List.mem_map_of_mem (·.1) hmem)
  unfold omapSet
  rw [if_pos hk]
  have hcongr : ∀ e ∈ m, (if e.1 == k then (k, v) else e) = e := by
    intro e he
    cases hek : (e.1 == k) with
    | true =>
      rw [if_pos rfl]
      exact (mem_unique_key m hnd (k, v) hmem e he (beq_iff_eq.mp hek)).symm
    | false => rw [if_neg (by simp)]
  rw [List.map_congr_left hcongr, List.map_id']

theorem foldSet_append :
    ∀ (l : List Rec) (m : OMap),
    (∀ r ∈ l, hasKey m r.ticker = false) → ((l.map (·.ticker)).Nodup) →
    l.foldl (fun m x => omapSet m x.ticker x) m = m ++ l.map (fun r => (r.ticker, r)) := by
  intro l
  induction l with
  | nil => intro m _ _; simp
  | cons r rest ih =>
    intro m hdis hnd
    have hcons : r.ticker ∉ rest.map (·.ticker) ∧ (rest.map (·.ticker)).Nodup := by
      rw [List.map_cons] at hnd
      exact List.nodup_cons.mp hnd
    have hr : hasKey m r.ticker = false := hdis r (List.mem_cons_self _ _)
    have hstep : omapSet m r.ticker r = m ++ [(r.ticker, r)] := by
      unfold omapSet
      rw [if_neg (by simp [hr])]
    have hdis2 : ∀ x ∈ rest, hasKey (m ++ [(r.ticker, r)]) x.ticker = false := by
      intro x hx
      rw [hasKey_append]
      have h1 : hasKey m x.ticker = false := hdis x (List.mem_cons_of_mem _ hx)
      have h2 : hasKey [(r.ticker, r)] x.ticker = false := by
        show ((r.ticker == x.ticker) || false) = false
        have : (r.ticker == x.ticker) = false := by
          simp only [beq_eq_false_iff_ne, ne_eq]
          exact fun hc => hcons.1 (hc ▸ List.mem_map_of_mem (·.ticker) hx)
        rw [this]
        rfl
      rw [h1, h2]
      rfl
    rw [List.foldl_cons, hstep, ih (m ++ [(r.ticker, r)]) hdis2 hcons.2]
    simp

theorem buildMap_eq (l : List Rec) (hnd : (l.map (·.ticker)).Nodup) :
    buildMap l = l.map (fun r => (r.ticker, r)) := by
  unfold buildMap
  rw [foldSet_append l [] (fun r _ => rfl) hnd]
  rfl

theorem keys_buildMap (l : List Rec) (hnd : (l.map (·.ticker)).Nodup) :
    (buildMap l).map (·.1) = l.map (·.ticker) := by
  rw [buildMap_eq l hnd, List.map_map]
  rfl

theorem keyed_buildMap (l : List Rec) (hnd : (l.map (·.ticker)).Nodup) :
    keyed (buildMap l) := by
  rw [buildMap_eq l hnd]
  intro e he
  rcases List.mem_map.mp he with ⟨r, _, rfl⟩
  rfl

theorem buildMap_of_map {m : OMap} (hk : keyed m) (hnd : (m.map (·.1)).Nodup) :
    buildMap (m.map (·.2)) = m := by
  have hton : (m.map (·.2)).map (·.ticker) = m.map (·.1) := by
    rw [List.map_map]
    exact List.map_congr_left (fun e he => (hk e he).symm)
  have hnd2 : ((m.map (·.2)).map (·.ticker)).Nodup := by
    rw [hton]
    exact hnd
  rw [buildMap_eq _ hnd2, List.map_map]
  have hcongr : ∀ e ∈ m, ((fun r : Rec => (r.ticker, r)) ∘ (fun e : String × Rec => e.2)) e = e := by
    intro e he
    show ((e.2.ticker, e.2) : String × Rec) = e
    rw [← hk e he]
  rw [List.map_congr_left hcongr, List.map_id']

theorem foldIncoming_fixed :
    ∀ (l : List Rec) (m : OMap), (m.map (·.1)).Nodup →
    (∀ i ∈ l, ∃ x, omapGet m i.ticker = some (applyIncomingButKeepLive x i)) →
    foldIncoming m l = m := by
  intro l
  induction l with
  | nil => intro m _ _; rfl
  | cons i rest ih =>
    intro m hnd h
    obtain ⟨x, hx⟩ := h i (List.mem_cons_self _ _)
    have hv : applyIncomingButKeepLive (omapGet m i.ticker) i =
        applyIncomingButKeepLive x i := by
      rw [hx]
      exact applyIncoming_absorb x i
    show foldIncoming
      (omapSet m i.ticker (applyIncomingButKeepLive (omapGet m i.ticker) i)) rest = m
    rw [hv, omapSet_get_self_eq hnd hx]
    exact ih m hnd (fun j hj => h j (List.mem_cons_of_mem _ hj))

theorem mergeIncomingList_tickers (prev incoming : List Rec)
    (hp : (prev.map (·.ticker)).Nodup) (hi : (incoming.map (·.ticker)).Nodup) :
    (mergeIncomingList prev incoming).map (·.ticker) =
      prev.map (·.ticker) ++
        (incoming.map (·.ticker)).filter (fun t => ! (prev.map (·.ticker)).contains t) := by
  unfold mergeIncomingList
  have hk1 : keyed (foldIncoming (buildMap prev) incoming) :=
    foldIncoming_keyed incoming _ (keyed_buildMap prev hp)
  rw [List.map_map]
  have hmapeq : (foldIncoming (buildMap prev) incoming).map
      ((fun r : Rec => r.ticker) ∘ (fun e : String × Rec => e.2)) =
      (foldIncoming (buildMap prev) incoming).map (·.1) :=
    List.map_congr_left (fun e he => (hk1 e he).symm)
  rw [hmapeq, foldIncoming_keys incoming _ hi, keys_buildMap prev hp]
  congr 1
  apply List.filter_congr
  intro t _
  congr 1
  apply bool_eq_of_iff
  rw [hasKey_iff, keys_buildMap prev hp]
  exact Iff.symm List.elem_iff

theorem mergeIncomingList_idem (prev incoming : List Rec)
    (hp : (prev.map (·.ticker)).Nodup) (hi : (incoming.map (·.ticker)).Nodup) :
    mergeIncomingList (mergeIncomingList prev incoming) incoming =
      mergeIncomingList prev incoming := by
  have hk1 : keyed (foldIncoming (buildMap prev) incoming) :=
    foldIncoming_keyed incoming _ (keyed_buildMap prev hp)
  have hnd0 : ((buildMap prev).map (·.1)).Nodup := by
    rw [keys_buildMap prev hp]
    exact hp
  have hnd1 : ((foldIncoming (buildMap prev) incoming).map (·.1)).Nodup :=
    foldIncoming_keys_nodup incoming _ hnd0
  show mergeIncomingList ((foldIncoming (buildMap prev) incoming).map (·.2)) incoming = _
  unfold mergeIncomingList
  rw [buildMap_of_map hk1 hnd1,
    foldIncoming_fixed incoming _ hnd1
      (fun i hi' => ⟨omapGet (buildMap prev) i.ticker,
        foldIncoming_get incoming _ hi i hi'⟩)]

end Part005

/-- Claim C10: `normalizeOne` stamps `_simulated: true` on every record it produces,
authoritative input or not, and `applyTick` does the same, so the flag never
distinguishes authoritative from simulated data. -/
theorem c10_simulated_flag :
    (∀ (item : Part000.Item) (now : String),
      (Part000.normalizeOne item now).simulated = true) ∧
    (∀ (p : Part000.Rec) (now : String) (a b c : ℚ),
      (Part000.applyTick p now a b c).simulated = true) :=
  ⟨fun _ _ => rfl, fun _ _ _ _ _ => rfl⟩

/-- Claim C4, counterexample: the part_005 derivation maps score 0.6 to BUY (its
STRONG_BUY test is the strict `score > 0.6`), while the claim requires every
signal-derivation copy to map 0.6 to STRONG_BUY. -/
theorem c4_counterexample :
    Part005.chooseSignalFromScore (6/10) = "BUY" ∧ ("BUY" : String) ≠ "STRONG_BUY" := by
  refine ⟨?_, by decide⟩
  unfold Part005.chooseSignalFromScore
  norm_num

/-- Claim C4, amended: the three signal derivations do not share one table.  The
part_002 copy realizes the spec table with BUY threshold 0.15 and the part_000 copy
realizes it with threshold 0.12, but the part_005 copy uses strict comparisons at 0.6
and 0.25, so score 0.6 yields BUY there, and 0.55 ≤ s ≤ 0.6 yields STRONG_BUY in the
first two copies but not in the third. -/
theorem c4_signal_tables :
    (∀ s : ℚ, Part002.signalFromScore s = SpecTable.signal (15/100) s) ∧
    (∀ s : ℚ, Part000.signalFromScore s = SpecTable.signal (12/100) s) ∧
    Part005.chooseSignalFromScore (6/10) = "BUY" ∧
    Part002.signalFromScore (6/10) = "STRONG_BUY" ∧
    Part000.signalFromScore (6/10) = "STRONG_BUY" :=
  ⟨fun _ => rfl, fun _ => rfl,
   by unfold Part005.chooseSignalFromScore; norm_num,
   by unfold Part002.signalFromScore; norm_num,
   by unfold Part000.signalFromScore; norm_num⟩

/-- Claim C5, counterexample: the part_005 confidence derivation maps 13 articles to
MEDIUM (its threshold is 12), while the claim requires MEDIUM only for
15 ≤ articleCount < 30, hence LOW at 13. -/
theorem c5_counterexample :
    Part005.chooseConfidenceLevel 13 = "MEDIUM" ∧ ("MEDIUM" : String) ≠ "LOW" := by
  decide

/-- Claim C5, amended: only the part_002 fallback derivation follows the claimed
30/15 table.  The part_005 tick uses thresholds 30/12 (13 articles → MEDIUM, diverging
from the spec table), and the part_000 tick derives the confidence level from |score|,
not from the article count: two ticked records with identical article counts receive
different confidence levels. -/
theorem c5_confidence_tables :
    (∀ n : ℤ, Part002.confidenceLevelFromArticles n = SpecTable.confidence n) ∧
    Part005.chooseConfidenceLevel 13 = "MEDIUM" ∧
    Part005.chooseConfidenceLevel 13 ≠ SpecTable.confidence 13 ∧
    (Part000.applyTick lowScoreRec "t1" 0 0 0).pred.confidence_level = "LOW" ∧
    (Part000.applyTick highScoreRec "t1" 0 0 0).pred.confidence_level = "HIGH" ∧
    lowScoreRec.total_articles = highScoreRec.total_articles :=
  ⟨fun _ => rfl, by decide, by decide,
   by
    norm_num [Part000.applyTick, lowScoreRec, msftPrev, Part000.clamp,
      Part000.confidenceFromAbs],
   by
    have h9 : |(9:ℚ)/10| = 9/10 := abs_of_nonneg (by norm_num)
    norm_num [Part000.applyTick, highScoreRec, msftPrev, Part000.clamp,
      Part000.confidenceFromAbs, h9],
   by decide⟩

/-- Claim C8: the spec is the intent ("never reset to the raw ticker once a better name
is known") and the code has a slip: `stableMerge`'s fallback
`normalizedApi.company_name || prev.company_name` is dead because `normalizeOne` has
already replaced a missing name by the bare ticker, which is truthy.  Evaluating the
failing input: a collection knowing MSFT as "Microsoft Corporation" merged with an
incoming MSFT record carrying no name regresses the display name to "MSFT". -/
theorem c8_name_regression :
    (Part000.stableMerge [msftPrev] [bareMsftItem] "t1").map (·.company_name) = ["MSFT"] ∧
    (Part000.normalizeOne bareMsftItem "t1").company_name = "MSFT" ∧
    ("MSFT" : String) ≠ "Microsoft Corporation" := by
  decide

/-- Claim C9, counterexample: when the predictions directory does not exist,
`fs.readdir` throws and the handler's outer catch answers HTTP 500, not the empty
snapshot the claim requires. -/
theorem c9_counterexample :
    Server.predictionsDaily none = Server.DailyResponse.serverError ∧
    Server.DailyResponse.serverError ≠ Server.DailyResponse.ok [] 0 := by
  exact ⟨rfl, by decide⟩

/-- Claim C9, amended: the endpoint answers the empty snapshot `{predictions: [],
count: 0}` when the directory exists and is empty, or contains no valid prediction
file; the count always equals the number of returned predictions; but a missing
directory is answered with a 500 error, not an empty snapshot. -/
theorem c9_daily_endpoint :
    Server.predictionsDaily (some []) = Server.DailyResponse.ok [] 0 ∧
    (∀ files : List Server.DirFile, (∀ f ∈ files, Server.entryOut f = none) →
      Server.predictionsDaily (some files) = Server.DailyResponse.ok [] 0) ∧
    (∀ files : List Server.DirFile, ∃ ps,
      Server.predictionsDaily (some files) = Server.DailyResponse.ok ps ps.length) ∧
    Server.predictionsDaily none = Server.DailyResponse.serverError := by
  refine ⟨rfl, ?_, fun files => ⟨files.filterMap Server.entryOut, rfl⟩, rfl⟩
  intro files h
  simp only [Server.predictionsDaily]
  rw [List.filterMap_eq_nil_iff.mpr h]
  rfl

/-- Claim C1, counterexample: the spec scenario evaluated on the code.  The collection
holds MSFT with score 0.2; a poll snapshot carries MSFT with 0.5 and TSLA with -0.7.
`stableMerge` keeps MSFT's old score 0.2 (the previous record wins for freshness
fields), while the claim requires it to become 0.5. -/
theorem c1_counterexample :
    (Part000.stableMerge [msftPrev] [msftItem05, tslaItem07] "t1").map
        (fun r => r.pred.combined_score) = [2/10, -(7/10)] ∧
    ((2 : ℚ)/10) ≠ 5/10 := by
  constructor
  · have habs : ¬ ((3:ℚ)/2 < |(7:ℚ)/10|) := by
      rw [abs_of_nonneg (by norm_num : (0:ℚ) ≤ 7/10)]
      norm_num
    simp [Part000.stableMerge, Part000.mergeEntry, Part000.normalizeOne,
      Part000.normalizeScore01, Part000.toNum, Part000.mapLookup, orD, orD2, truthy,
      nn2, jsOr, msftPrev, msftItem05, tslaItem07, habs]
  · norm_num

/-- Claim C1, amended: when an incoming record's ticker already exists in the current
collection, reconciliation keeps the existing record's freshness-sensitive fields
(score, sentiment, articleCount, signal, direction, confidenceLevel, reasoning,
timestamp) and takes only the identity fields (ticker, company name) from the incoming
record, in both merge implementations; in the scenario MSFT's score therefore stays
0.2. -/
theorem c1_merge_keeps_previous :
    (∀ (prev : List Part000.Rec) (now : String) (a : Part000.Item) (p : Part000.Rec),
      Part000.mapLookup prev (Part000.normalizeOne a now).ticker = some p →
      (Part000.mergeEntry prev now a).pred = p.pred ∧
      (Part000.mergeEntry prev now a).average_sentiment = p.average_sentiment ∧
      (Part000.mergeEntry prev now a).total_articles = p.total_articles ∧
      (Part000.mergeEntry prev now a).timestamp = p.timestamp) ∧
    (∀ prev inc : Part005.Rec,
      (Part005.applyIncomingButKeepLive (some prev) inc).pred = prev.pred ∧
      (Part005.applyIncomingButKeepLive (some prev) inc).average_sentiment =
        prev.average_sentiment ∧
      (Part005.applyIncomingButKeepLive (some prev) inc).total_articles =
        prev.total_articles ∧
      (Part005.applyIncomingButKeepLive (some prev) inc).timestamp = prev.timestamp) := by
  constructor
  · intro prev now a p h
    simp [Part000.mergeEntry, h]
  · intro prev inc
    exact ⟨rfl, rfl, rfl, rfl⟩

/-- Claim C1, witness: the amended statement instantiated on the MSFT scenario. -/
theorem c1_witness :
    Part000.mapLookup [msftPrev] (Part000.normalizeOne msftItem05 "t1").ticker =
      some msftPrev ∧
    (Part000.mergeEntry [msftPrev] "t1" msftItem05).pred = msftPrev.pred := by
  have h : Part000.mapLookup [msftPrev] (Part000.normalizeOne msftItem05 "t1").ticker =
      some msftPrev := by
    simp [Part000.mapLookup, Part000.normalizeOne, orD, orD2, truthy, msftPrev,
      msftItem05]
  exact ⟨h, (c1_merge_keeps_previous.1 [msftPrev] "t1" msftItem05 msftPrev h).1⟩

/-- Claim C6, counterexample: a flat `combined_score` of 50 is not divided by 100 by
`normalizePrediction` — it is clamped to 1 — although its magnitude exceeds 1.5, so the
"any numeric score input of magnitude greater than 1.5 is divided by 100" part of the
claim fails (division by 100 would give 0.5). -/
theorem c6_counterexample :
    (Part002.normalizePrediction (shapeFlat "X" 50) "t1").pred.combined_score = 1 ∧
    ((1 : ℚ) ≠ 50/100) := by
  constructor
  · simp [Part002.normalizePrediction, Part002.resolvedScore, Part002.srcField,
      Part002.predObjOf, Part002.predNumberOf, shapeFlat]
    unfold Part002.clamp
    rw [min_eq_left (by norm_num), max_eq_right (by norm_num)]
  · norm_num

/-- Claim C6, amended: normalizing the same ticker and score `s ∈ [-1,1]` presented in
the three shapes (nested `prediction.combined_score`, flat `combined_score`,
percentage `signal_strength = 100·s`) yields identical canonical records.  The
divide-when-larger-than-1.5 rule, however, is implemented only by part_000's
`normalizeScore01`; part_002's `normalizePrediction` never rescales a `combined_score`
(it clamps oversized values to the [-1,1] boundary) and always divides
`signal_strength` by 100. -/
theorem c6_shape_invariance :
    (∀ (t now : String) (s : ℚ), -1 ≤ s → s ≤ 1 →
      Part002.normalizePrediction (shapeNested t s) now =
        Part002.normalizePrediction (shapeFlat t s) now ∧
      Part002.normalizePrediction (shapePct t s) now =
        Part002.normalizePrediction (shapeFlat t s) now) ∧
    (∀ v : ℚ, 3/2 < |v| → Part000.normalizeScore01 (some v) = v / 100) ∧
    (∀ (t now : String) (v : ℚ), 3/2 < v →
      (Part002.normalizePrediction (shapeFlat t v) now).pred.combined_score = 1) := by
  refine ⟨?_, ?_, ?_⟩
  · intro t now s h1 h2
    have hs : Part002.clamp s (-1) 1 = s := by
      unfold Part002.clamp
      rw [min_eq_right h2, max_eq_right h1]
    constructor
    · simp [Part002.normalizePrediction, Part002.resolvedScore, Part002.srcField,
        Part002.predObjOf, Part002.predNumberOf, Part002.avgSentOf,
        Part002.totalArticlesOf, shapeNested, shapeFlat]
    · simp [Part002.normalizePrediction, Part002.resolvedScore, Part002.srcField,
        Part002.predObjOf, Part002.predNumberOf, Part002.avgSentOf,
        Part002.totalArticlesOf, shapeNested, shapeFlat, shapePct, hs]
  · intro v hv
    simp [Part000.normalizeScore01, Part000.toNum, hv]
  · intro t now v hv
    simp [Part002.normalizePrediction, Part002.resolvedScore, Part002.srcField,
      Part002.predObjOf, Part002.predNumberOf, shapeFlat]
    unfold Part002.clamp
    rw [min_eq_left (by linarith), max_eq_right (by norm_num)]

/-- Claim C6, witness: shape invariance at score 0.5, the divide rule at 8, and the
clamp behaviour at 50. -/
theorem c6_witness :
    Part002.normalizePrediction (shapeNested "AAPL" (1/2)) "t1" =
      Part002.normalizePrediction (shapeFlat "AAPL" (1/2)) "t1" ∧
    Part000.normalizeScore01 (some 8) = 8 / 100 ∧
    (Part002.normalizePrediction (shapeFlat "AAPL" 50) "t2").pred.combined_score = 1 :=
  ⟨(c6_shape_invariance.1 "AAPL" "t1" (1/2) (by norm_num) (by norm_num)).1,
   c6_shape_invariance.2.1 8 (by rw [abs_of_nonneg (by norm_num : (0:ℚ) ≤ 8)]; norm_num),
   c6_shape_invariance.2.2 "AAPL" "t2" 50 (by norm_num)⟩

/-- The max-outside clamp keeps its value between the bounds. -/
theorem maxmin_mem (v mn mx : ℚ) (h : mn ≤ mx) :
    mn ≤ max mn (min mx v) ∧ max mn (min mx v) ≤ mx :=
  ⟨le_max_left _ _, max_le h (min_le_left _ _)⟩

/-- Integer version of `maxmin_mem`. -/
theorem maxminZ_mem (v mn mx : ℤ) (h : mn ≤ mx) :
    mn ≤ max mn (min mx v) ∧ max mn (min mx v) ≤ mx :=
  ⟨le_max_left _ _, max_le h (min_le_left _ _)⟩

/-- The min-outside clamp (part_005 style) keeps its value between the bounds. -/
theorem minmax_mem (v mn mx : ℚ) (h : mn ≤ mx) :
    mn ≤ min mx (max mn v) ∧ min mx (max mn v) ≤ mx :=
  ⟨le_min h (le_max_left _ _), min_le_left _ _⟩

/-- Rounding to three decimals keeps a value of [-1, 1] inside [-1, 1]. -/
theorem toFixed3_mem (x : ℚ) (h1 : -1 ≤ x) (h2 : x ≤ 1) :
    -1 ≤ toFixed3 x ∧ toFixed3 x ≤ 1 := by
  unfold toFixed3
  have hub : ⌊x * 1000 + 1/2⌋ ≤ 1000 := by
    have hle : x * 1000 + 1/2 ≤ (2001 : ℚ)/2 := by linarith
    have h2001 : ⌊(2001 : ℚ)/2⌋ = 1000 := by
      rw [Int.floor_eq_iff]
      norm_num
    calc ⌊x * 1000 + 1/2⌋ ≤ ⌊(2001 : ℚ)/2⌋ := Int.floor_le_floor hle
      _ = 1000 := h2001
  have hlb : (-1000 : ℤ) ≤ ⌊x * 1000 + 1/2⌋ := by
    apply Int.le_floor.mpr
    push_cast
    linarith
  constructor
  · have hc : (-1000 : ℚ) ≤ (⌊x * 1000 + 1/2⌋ : ℚ) := by exact_mod_cast hlb
    linarith
  · have hc : ((⌊x * 1000 + 1/2⌋ : ℤ) : ℚ) ≤ 1000 := by exact_mod_cast hub
    linarith

/-- One part_000 simulator tick lands inside the bounds, whatever the random draws. -/
theorem applyTick_bounds (p : Part000.Rec) (now : String) (a b c : ℚ) :
    withinBounds000 (Part000.applyTick p now a b c) := by
  have hs := maxmin_mem (min (99/100) (p.pred.combined_score + a)) (-(99/100)) (99/100)
    (by norm_num)
  refine ⟨?_, ?_, ?_, ?_, ?_, ?_⟩
  · show -1 ≤ Part000.clamp (p.pred.combined_score + a) (-(99/100)) (99/100)
    have := (maxmin_mem (p.pred.combined_score + a) (-(99/100)) (99/100) (by norm_num)).1
    unfold Part000.clamp
    linarith
  · show Part000.clamp (p.pred.combined_score + a) (-(99/100)) (99/100) ≤ 1
    have := (maxmin_mem (p.pred.combined_score + a) (-(99/100)) (99/100) (by norm_num)).2
    unfold Part000.clamp
    linarith
  · show -1 ≤ Part000.clamp (p.average_sentiment + b) (-(99/100)) (99/100)
    have := (maxmin_mem (p.average_sentiment + b) (-(99/100)) (99/100) (by norm_num)).1
    unfold Part000.clamp
    linarith
  · show Part000.clamp (p.average_sentiment + b) (-(99/100)) (99/100) ≤ 1
    have := (maxmin_mem (p.average_sentiment + b) (-(99/100)) (99/100) (by norm_num)).2
    unfold Part000.clamp
    linarith
  · show (0 : ℤ) ≤ Part000.clampZ (jsRound ((p.total_articles : ℚ) + c)) 0 200
    have := (maxminZ_mem (jsRound ((p.total_articles : ℚ) + c)) 0 200 (by norm_num)).1
    unfold Part000.clampZ
    exact this
  · show Part000.clampZ (jsRound ((p.total_articles : ℚ) + c)) 0 200 ≤ 200
    have := (maxminZ_mem (jsRound ((p.total_articles : ℚ) + c)) 0 200 (by norm_num)).2
    unfold Part000.clampZ
    exact this

/-- Claim C7: every record within bounds stays within bounds under any number of
part_000 simulator ticks with arbitrary random draws, and each part_002 tick output is
within bounds for every input payload and draw (hence any number of consecutive
part_002 ticks as well). -/
theorem c7_tick_bounds :
    (∀ p : Part000.Rec, withinBounds000 p →
      ∀ (now : ℕ → String) (d : ℕ → ℚ × ℚ × ℚ) (n : ℕ),
        withinBounds000 (Part000.ticks p now d n)) ∧
    (∀ (item : Part002.Item) (now : String) (dS dSe : ℚ) (dA : ℤ),
      withinBounds002 (Part002.tickOne item now dS dSe dA)) := by
  constructor
  · intro p hp now d n
    induction n with
    | zero => exact hp
    | succ k ih => exact applyTick_bounds _ _ _ _ _
  · intro item now dS dSe dA
    set base := Part002.normalizePrediction item now with hbase
    have hsc := maxmin_mem (base.pred.combined_score + dS) (-1) 1 (by norm_num)
    have hse := maxmin_mem (base.average_sentiment + dSe) (-1) 1 (by norm_num)
    have hfc := toFixed3_mem (Part002.clamp (base.pred.combined_score + dS) (-1) 1)
      (by unfold Part002.clamp; exact hsc.1) (by unfold Part002.clamp; exact hsc.2)
    have hfe := toFixed3_mem (Part002.clamp (base.average_sentiment + dSe) (-1) 1)
      (by unfold Part002.clamp; exact hse.1) (by unfold Part002.clamp; exact hse.2)
    have har := maxminZ_mem (base.total_articles + dA) 1 60 (by norm_num)
    refine ⟨hfc.1, hfc.2, hfe.1, hfe.2, ?_, ?_⟩
    · show (0 : ℤ) ≤ Part002.clampZ (base.total_articles + dA) 1 60
      unfold Part002.clampZ
      omega
    · show Part002.clampZ (base.total_articles + dA) 1 60 ≤ 200
      unfold Part002.clampZ
      omega

/-- Claim C7, witness: the MSFT sample record is within bounds and remains so after
five ticks with out-of-range draws. -/
theorem c7_witness :
    withinBounds000 msftPrev ∧
    withinBounds000 (Part000.ticks msftPrev (fun _ => "w") (fun _ => (1, 1, 300)) 5) := by
  have hb : withinBounds000 msftPrev := by
    norm_num [withinBounds000, msftPrev]
  exact ⟨hb, c7_tick_bounds.1 msftPrev hb _ _ 5⟩

/-- Claim C2, counterexample: `stableMerge` is not idempotent for every incoming batch.
A batch carrying the same ticker twice with different scores yields `[0.1, 0.3]` after
one reconciliation into the empty collection but `[0.3, 0.3]` after reconciling it
again (the rebuilt ticker map is last-wins). -/
theorem c2_counterexample :
    (Part000.stableMerge (Part000.stableMerge [] [dupItemA, dupItemB] "t1")
        [dupItemA, dupItemB] "t1").map (fun r => r.pred.combined_score) = [3/10, 3/10] ∧
    (Part000.stableMerge [] [dupItemA, dupItemB] "t1").map
        (fun r => r.pred.combined_score) = [1/10, 3/10] ∧
    ((3 : ℚ)/10) ≠ 1/10 := by
  have h1 : ¬ ((3:ℚ)/2 < |(1:ℚ)/10|) := by
    rw [abs_of_nonneg (by norm_num : (0:ℚ) ≤ 1/10)]
    norm_num
  have h3 : ¬ ((3:ℚ)/2 < |(3:ℚ)/10|) := by
    rw [abs_of_nonneg (by norm_num : (0:ℚ) ≤ 3/10)]
    norm_num
  refine ⟨?_, ?_, by norm_num⟩
  · simp [Part000.stableMerge, Part000.mergeEntry, Part000.normalizeOne,
      Part000.normalizeScore01, Part000.toNum, Part000.mapLookup, orD, orD2, truthy,
      nn2, jsOr, dupItemA, dupItemB, h1, h3]
  · simp [Part000.stableMerge, Part000.mergeEntry, Part000.normalizeOne,
      Part000.normalizeScore01, Part000.toNum, Part000.mapLookup, orD, orD2, truthy,
      nn2, jsOr, dupItemA, dupItemB, h1, h3]
    intro hcon
    rw [abs_of_nonneg (by norm_num : (0:ℚ) ≤ 10⁻¹)] at hcon
    norm_num at hcon

/-- Claim C2, amended: reconciliation is idempotent for every batch whose (normalized)
tickers are duplicate-free — which every full snapshot satisfies, the backend holding
one file per ticker — in both merge implementations; `mergeIncomingList` additionally
needs the current collection's tickers duplicate-free (its invariant).  Batches
repeating a ticker break idempotence of `stableMerge`. -/
theorem c2_reconcile_idempotent :
    (∀ (prev : List Part000.Rec) (api : List Part000.Item) (now now2 : String),
      (api.map Part000.itemTicker).Nodup →
      Part000.stableMerge (Part000.stableMerge prev api now) api now2 =
        Part000.stableMerge prev api now) ∧
    (∀ prev incoming : List Part005.Rec,
      (prev.map (·.ticker)).Nodup → (incoming.map (·.ticker)).Nodup →
      Part005.mergeIncomingList (Part005.mergeIncomingList prev incoming) incoming =
        Part005.mergeIncomingList prev incoming) :=
  ⟨Part000.stableMerge_idem, Part005.mergeIncomingList_idem⟩

/-- Claim C2, witness: idempotence applied to singleton collections and batches. -/
theorem c2_witness :
    ([msftItem05].map Part000.itemTicker).Nodup ∧
    Part000.stableMerge (Part000.stableMerge [msftPrev] [msftItem05] "t1")
        [msftItem05] "t2" = Part000.stableMerge [msftPrev] [msftItem05] "t1" ∧
    Part005.mergeIncomingList (Part005.mergeIncomingList [recA005] [recB005]) [recB005] =
      Part005.mergeIncomingList [recA005] [recB005] :=
  ⟨by decide,
   c2_reconcile_idempotent.1 [msftPrev] [msftItem05] "t1" "t2" (by decide),
   c2_reconcile_idempotent.2 [recA005] [recB005] (by decide) (by decide)⟩

/-- Claim C3, counterexample: neither merge realizes the claimed order.  In
`mergeIncomingList`, a ticker of the collection absent from the snapshot stays in
place (AAA before the snapshot's BBB), not appended after the snapshot's tickers; in
`stableMerge`, previously-seen tickers follow the snapshot's order (B, A), not the
collection's previous relative order (A, B). -/
theorem c3_counterexample :
    (Part005.mergeIncomingList [recA005] [recB005]).map (·.ticker) = ["AAA", "BBB"] ∧
    (["AAA", "BBB"] : List String) ≠ ["BBB", "AAA"] ∧
    (Part000.stableMerge [recA000, recB000] [itemB000, itemA000] "t1").map (·.ticker) =
      ["BBB", "AAA"] ∧
    (["BBB", "AAA"] : List String) ≠ ["AAA", "BBB"] := by
  refine ⟨by decide, by decide, ?_, by decide⟩
  decide

/-- Claim C3, amended: with duplicate-free tickers every ticker of the collection and
of the snapshot appears exactly once, and none is ever dropped, but the order differs
from the claim: `stableMerge` puts the snapshot's tickers first, in snapshot order,
and appends the collection's leftover tickers at the end; `mergeIncomingList` keeps
the collection's tickers in their original positions (including those the snapshot
omits, which are *not* moved after the snapshot's tickers) and appends the snapshot's
unseen tickers at the end. -/
theorem c3_ticker_order :
    (∀ (prev : List Part000.Rec) (api : List Part000.Item) (now : String),
      (Part000.stableMerge prev api now).map (·.ticker) =
        api.map Part000.itemTicker ++
          (prev.map (·.ticker)).filter
            (fun t => ! (api.map Part000.itemTicker).contains t)) ∧
    (∀ prev incoming : List Part005.Rec,
      (prev.map (·.ticker)).Nodup → (incoming.map (·.ticker)).Nodup →
      (Part005.mergeIncomingList prev incoming).map (·.ticker) =
        prev.map (·.ticker) ++
          (incoming.map (·.ticker)).filter
            (fun t => ! (prev.map (·.ticker)).contains t) ∧
      ((Part005.mergeIncomingList prev incoming).map (·.ticker)).Nodup) := by
  constructor
  · exact Part000.stableMerge_tickers
  · intro prev incoming hp hi
    have hform := Part005.mergeIncomingList_tickers prev incoming hp hi
    refine ⟨hform, ?_⟩
    rw [hform]
    refine List.Nodup.append hp (List.Nodup.filter _ hi) ?_
    intro a ha hb
    have hpred := (List.mem_filter.mp hb).2
    have hnotin : a ∉ prev.map (·.ticker) := by
      simpa using hpred
    exact hnotin ha

/-- Claim C3, witness: the order characterization applied to the singleton scenario. -/
theorem c3_witness :
    ((([recA005] : List Part005.Rec)).map (·.ticker)).Nodup ∧
    ((([recB005] : List Part005.Rec)).map (·.ticker)).Nodup ∧
    (Part005.mergeIncomingList [recA005] [recB005]).map (·.ticker) =
      ([recA005] : List Part005.Rec).map (·.ticker) ++
        ((([recB005] : List Part005.Rec)).map (·.ticker)).filter
          (fun t => ! (([recA005] : List Part005.Rec).map (·.ticker)).contains t) :=
  ⟨by decide, by decide,
   (c3_ticker_order.2 [recA005] [recB005] (by decide) (by decide)).1⟩

/-- Claim C9, witness: the amended theorem applied to a directory holding one
unparseable prediction file. -/
theorem c9_witness :
    (∀ f ∈ [Server.DirFile.mk "MSFT_prediction.json" none], Server.entryOut f = none) ∧
    Server.predictionsDaily (some [Server.DirFile.mk "MSFT_prediction.json" none]) =
      Server.DailyResponse.ok [] 0 :=
  ⟨by decide, c9_daily_endpoint.2.1 [Server.DirFile.mk "MSFT_prediction.json" none] (by decide)⟩
